import Mathlib

/-!
Verification of the trace-aggregation and report-writing tail of
`src/SimpleWorkflowSimulator.cpp` (lines 211-283): the loop over the task
completion trace, the derived metrics, and the CSV rows appended per host.

Timestamps and energies are modelled as rationals.  The C++ arithmetic on
`double` that can produce non-finite values (division) is modelled by an
extended value type `EFloat` with IEEE-style infinities and NaN (signed
zero is not modelled: the simulation produces no negative zeros).
-/

/-- Extended value: a finite rational, plus the IEEE special values
positive infinity, negative infinity and NaN, so that the C++ `double`
divisions of the source can be modelled faithfully where they produce
non-finite results. -/
inductive EFloat where
  | fin (q : ℚ)
  | pinf
  | ninf
  | nan
deriving DecidableEq, Repr

/-- IEEE-style addition on `EFloat`. -/
def EFloat.add : EFloat → EFloat → EFloat
  | .nan, _ => .nan
  | _, .nan => .nan
  | .pinf, .ninf => .nan
  | .ninf, .pinf => .nan
  | .pinf, _ => .pinf
  | _, .pinf => .pinf
  | .ninf, _ => .ninf
  | _, .ninf => .ninf
  | .fin a, .fin b => .fin (a + b)

/-- IEEE-style division on `EFloat` (positive zero only: `a / 0` is
`+inf` for `a > 0`, `-inf` for `a < 0`, `NaN` for `a = 0`). -/
def EFloat.div : EFloat → EFloat → EFloat
  | .nan, _ => .nan
  | _, .nan => .nan
  | .pinf, .pinf => .nan
  | .pinf, .ninf => .nan
  | .ninf, .pinf => .nan
  | .ninf, .ninf => .nan
  | .pinf, .fin b => if b < 0 then .ninf else .pinf
  | .ninf, .fin b => if b < 0 then .pinf else .ninf
  | .fin _, .pinf => .fin 0
  | .fin _, .ninf => .fin 0
  | .fin a, .fin b =>
      if b = 0 then (if a = 0 then .nan else if 0 < a then .pinf else .ninf)
      else .fin (a / b)

/-- One task execution attempt: the timestamps of
`wrench::WorkflowTask::WorkflowTaskExecution` used by the source. -/
structure TaskExecution where
  read_input_start : ℚ
  read_input_end : ℚ
  computation_start : ℚ
  computation_end : ℚ
  write_output_start : ℚ
  write_output_end : ℚ
deriving DecidableEq, Repr

instance : Inhabited TaskExecution := ⟨⟨0, 0, 0, 0, 0, 0⟩⟩

/-- A workflow task as the aggregation loop sees it: its execution
history, a stack whose head is the most recent (final) attempt
(`getExecutionHistory()`; `.top()` is the head). -/
structure WorkflowTask where
  history : List TaskExecution
deriving DecidableEq, Repr

/-- `getExecutionHistory().top()`: the most recent execution record. -/
def WorkflowTask.top (t : WorkflowTask) : TaskExecution := t.history.headI

/-- Line 226: `read_input_end - read_input_start` of the final record. -/
def ioInputTime (t : WorkflowTask) : ℚ :=
  t.top.read_input_end - t.top.read_input_start

/-- Line 227: `write_output_end - write_output_start` of the final record. -/
def ioOutputTime (t : WorkflowTask) : ℚ :=
  t.top.write_output_end - t.top.write_output_start

/-- Line 228: `computation_end - computation_start` of the final record. -/
def computeTime (t : WorkflowTask) : ℚ :=
  t.top.computation_end - t.top.computation_start

/-- The mutable accumulation state of the loop at lines 214-230. -/
structure LoopState where
  num_failed_tasks : ℕ
  ratio_acc : EFloat
  io_time_input : ℚ
  io_time_output : ℚ
  compute_time : ℚ
deriving DecidableEq, Repr

/-- One iteration of the loop body (lines 219-230): bump the failure
count if the task has more than one execution record, overwrite the three
timing variables with the final record's deltas, and add
`compute_time / (io_time_input + io_time_output)` to the running ratio
accumulator. -/
def stepTask (s : LoopState) (t : WorkflowTask) : LoopState :=
  { num_failed_tasks :=
      if 1 < t.history.length then s.num_failed_tasks + 1 else s.num_failed_tasks
    io_time_input := ioInputTime t
    io_time_output := ioOutputTime t
    compute_time := computeTime t
    ratio_acc :=
      s.ratio_acc.add ((EFloat.fin (computeTime t)).div
        (EFloat.fin (ioInputTime t + ioOutputTime t))) }

/-- The whole loop: fold `stepTask` over the trace from the zero-initialised
state of lines 214-218. -/
def aggregate (trace : List WorkflowTask) : LoopState :=
  trace.foldl stepTask ⟨0, .fin 0, 0, 0, 0⟩

/-- Line 232: `computation_communication_ratio_average /= (double)(trace.size())`. -/
def ratioAverage (trace : List WorkflowTask) : EFloat :=
  (aggregate trace).ratio_acc.div (.fin (trace.length : ℚ))

/-- The per-task ratio term `compute_time / (io_time_input + io_time_output)`
added to the accumulator at line 229. -/
def ratioTerm (t : WorkflowTask) : EFloat :=
  (EFloat.fin (computeTime t)).div (.fin (ioInputTime t + ioOutputTime t))

/-- Spec-side definition for comparison, following the spec's words: the
arithmetic mean over tasks of `compute_time / (io_input_time + io_output_time)`,
the sum of the per-task terms divided by the number of tasks. -/
def ratioMeanSpec (trace : List WorkflowTask) : EFloat :=
  ((trace.map ratioTerm).foldl EFloat.add (.fin 0)).div (.fin (trace.length : ℚ))

/-- Spec-side definition for comparison, following the spec's words: the
mean over all tasks' final records of `computation_end - computation_start`. -/
def avgComputeTimeSpec (trace : List WorkflowTask) : ℚ :=
  (trace.map computeTime).foldl (· + ·) 0 / (trace.length : ℚ)

/-- Static and per-run host data the report loop queries
(`getHostnameList`, `getHostNumCores`, `getEnergyConsumed`). -/
structure HostInfo where
  name : String
  num_cores : ℕ
  energy_consumed : ℚ
deriving DecidableEq, Repr

/-- Everything the post-simulation code consumes: the completion trace,
the host list, `workflow->getNumberOfTasks()` and
`workflow->getCompletionDate()`. -/
structure SimInput where
  trace : List WorkflowTask
  hosts : List HostInfo
  numTasks : ℕ
  completionDate : ℚ
deriving DecidableEq, Repr

/-- One CSV cell. -/
inductive Cell where
  | str (s : String)
  | nat (n : ℕ)
  | val (x : EFloat)
deriving DecidableEq, Repr

/-- The column names of the header line written at line 247. -/
def headerFields : List String :=
  ["runid", "host_name", "num_cores", "num_tasks", "trace_size",
   "failed_tasks", "compute_time", "IO_time_input", "IO_time_output",
   "Comm/Comp_Ratio", "power", "completion_date"]

/-- The data row emitted for one host (lines 255-278): run id
`"extk-" + num_tasks`, the host name and core count, the loop's final
timing values and ratio average, the power `energy / completion_date`,
and the completion date. -/
def rowFor (inp : SimInput) (st : LoopState) (ravg : EFloat) (h : HostInfo) :
    List Cell :=
  [.str ("extk-" ++ toString inp.numTasks),
   .str h.name,
   .nat h.num_cores,
   .nat inp.numTasks,
   .nat inp.trace.length,
   .nat st.num_failed_tasks,
   .val (.fin st.compute_time),
   .val (.fin st.io_time_input),
   .val (.fin st.io_time_output),
   .val ravg,
   .val ((EFloat.fin h.energy_consumed).div (.fin inp.completionDate)),
   .val (.fin inp.completionDate)]

/-- One line of the CSV file: either the header line or a data row. -/
inductive Line where
  | header
  | data (fields : List Cell)
deriving DecidableEq, Repr

/-- Whether a line is the header line. -/
def Line.isHeader : Line → Bool
  | .header => true
  | .data _ => false

/-- Whether a line is a data row. -/
def Line.isData : Line → Bool
  | .header => false
  | .data _ => true

/-- What one invocation of the program leaves behind after the
simulation has run: the final loop state, the ratio average, the file
contents, the process exit code and whether an open error was printed. -/
structure RunResult where
  state : LoopState
  ratio_avg : EFloat
  file : List Line
  exit_code : ℕ
  error_reported : Bool
deriving DecidableEq, Repr

/-- The tail of `main` (lines 211-283): run the aggregation loop, divide
the ratio accumulator by the trace size, open the report file in append
mode (`openOk` says whether the open succeeded; on failure an error is
printed to stderr and every stream write is a no-op), write the header iff
the file is empty at open time (`tellp() == 0`), append one row per host,
and return 0 unconditionally. -/
def mainRun (inp : SimInput) (file : List Line) (openOk : Bool) : RunResult :=
  let st := aggregate inp.trace
  let ravg := st.ratio_acc.div (.fin (inp.trace.length : ℚ))
  { state := st
    ratio_avg := ravg
    file :=
      if openOk then
        file ++ (if file.isEmpty then [Line.header] else []) ++
          inp.hosts.map (fun h => Line.data (rowFor inp st ravg h))
      else file
    exit_code := 0
    error_reported := !openOk }

/-- The data rows one invocation appends: one per host, all built from the
same aggregate state and ratio average. -/
def newRows (inp : SimInput) : List Line :=
  inp.hosts.map fun h =>
    Line.data (rowFor inp (aggregate inp.trace)
      ((aggregate inp.trace).ratio_acc.div (.fin (inp.trace.length : ℚ))) h)

/-- `n` successful invocations appending to the same report path,
starting from an empty file. -/
def runN (inp : SimInput) : ℕ → List Line
  | 0 => []
  | n + 1 => (mainRun inp (runN inp n) true).file

/-- Sample task: read 0-1, compute 0-2, write 0-1 (one attempt). -/
def sampleTask1 : WorkflowTask := ⟨[⟨0, 1, 0, 2, 0, 1⟩]⟩

/-- Sample task: read 0-1, compute 0-4, write 0-1 (one attempt). -/
def sampleTask2 : WorkflowTask := ⟨[⟨0, 1, 0, 4, 0, 1⟩]⟩

/-- Sample task whose final record spends no time on input or output:
read 0-0, compute 0-3, write 0-0. -/
def zeroIoTask : WorkflowTask := ⟨[⟨0, 0, 0, 3, 0, 0⟩]⟩

/-- Sample host: 4 cores, 40 J consumed. -/
def sampleHost : HostInfo := ⟨"WMSHost", 4, 40⟩

/-- Second sample host: 2 cores, 20 J consumed. -/
def sampleHost2 : HostInfo := ⟨"BatchHeadNode", 2, 20⟩

/-- Sample run input: one single-attempt task, two hosts, completion at 10 s. -/
def sampleInput : SimInput := ⟨[sampleTask1], [sampleHost, sampleHost2], 1, 10⟩

/-- The data row the sample run emits for `sampleHost`. -/
def wRow1 : List Cell :=
  rowFor sampleInput (aggregate sampleInput.trace)
    ((aggregate sampleInput.trace).ratio_acc.div (.fin (sampleInput.trace.length : ℚ)))
    sampleHost

/-- The data row the sample run emits for `sampleHost2`. -/
def wRow2 : List Cell :=
  rowFor sampleInput (aggregate sampleInput.trace)
    ((aggregate sampleInput.trace).ratio_acc.div (.fin (sampleInput.trace.length : ℚ)))
    sampleHost2

/-- The ratio accumulator of the loop is the in-order sum of the per-task
ratio terms on top of the starting accumulator. -/
theorem foldl_stepTask_ratio (ts : List WorkflowTask) (s : LoopState) :
    (ts.foldl stepTask s).ratio_acc =
      ts.foldl (fun a t => a.add (ratioTerm t)) s.ratio_acc := by
  induction ts generalizing s with
  | nil => rfl
  | cons t ts ih => simp [List.foldl_cons, ih, stepTask, ratioTerm]

/-- The failure counter of the loop adds, to its starting value, one per
task whose execution history has more than one record. -/
theorem foldl_stepTask_failed (ts : List WorkflowTask) (s : LoopState) :
    (ts.foldl stepTask s).num_failed_tasks =
      s.num_failed_tasks + ts.countP (fun t => decide (1 < t.history.length)) := by
  induction ts generalizing s with
  | nil => simp
  | cons t ts ih =>
      simp only [List.foldl_cons, ih, stepTask, List.countP_cons]
      by_cases h : 1 < t.history.length <;> simp [h] <;> omega

/-- The file left by one successful invocation: the old contents, then the
header iff the file was empty, then one data row per host. -/
theorem mainRun_file_ok (inp : SimInput) (f : List Line) :
    (mainRun inp f true).file =
      f ++ (if f.isEmpty then [Line.header] else []) ++ newRows inp := rfl

/-- No appended data row is a header line. -/
theorem countP_newRows_header (inp : SimInput) :
    (newRows inp).countP Line.isHeader = 0 := by
  simp [newRows, List.countP_map, Function.comp, Line.isHeader]

/-- Every appended row is a data line, one per host. -/
theorem countP_newRows_data (inp : SimInput) :
    (newRows inp).countP Line.isData = inp.hosts.length := by
  rw [newRows, List.countP_map]
  simp [Function.comp, Line.isData]

/-- One invocation appends exactly one row per host. -/
theorem length_newRows (inp : SimInput) :
    (newRows inp).length = inp.hosts.length := by
  simp [newRows]

/-- Claim C1: for every non-empty trace, the persisted
`avg_compute_to_io_ratio` equals the arithmetic mean over tasks of
`compute_time / (io_input_time + io_output_time)`, where each task's three
times are the end-minus-start deltas of its final execution record only. -/
theorem ratio_avg_is_arith_mean (inp : SimInput) (file : List Line) (openOk : Bool)
    (h : inp.trace ≠ []) :
    (mainRun inp file openOk).ratio_avg = ratioMeanSpec inp.trace := by
  show (aggregate inp.trace).ratio_acc.div _ = _
  rw [ratioMeanSpec, aggregate, foldl_stepTask_ratio, List.foldl_map]

/-- Witness for claim C1: the sample one-task input is non-empty and its
ratio average equals the spec-side mean. -/
theorem ratio_avg_is_arith_mean_witness :
    sampleInput.trace ≠ [] ∧
    (mainRun sampleInput [] true).ratio_avg = ratioMeanSpec sampleInput.trace :=
  ⟨by simp [sampleInput], ratio_avg_is_arith_mean sampleInput [] true (by simp [sampleInput])⟩

/-- Claim C2 (code behaviour at the failing input): a task whose final
record has `io_input_time + io_output_time = 0` is not excluded - its term
`compute / 0` enters the accumulator as positive infinity, and the average
over the one-task trace is positive infinity. -/
theorem zero_io_task_counted_as_infinity :
    (aggregate [zeroIoTask]).ratio_acc = EFloat.pinf ∧
    (mainRun ⟨[zeroIoTask], [sampleHost], 1, 10⟩ [] true).ratio_avg = EFloat.pinf := by
  constructor
  · norm_num [aggregate, stepTask, computeTime, ioInputTime, ioOutputTime,
      WorkflowTask.top, zeroIoTask, EFloat.div, EFloat.add]
  · show (aggregate [zeroIoTask]).ratio_acc.div _ = _
    norm_num [aggregate, stepTask, computeTime, ioInputTime, ioOutputTime,
      WorkflowTask.top, zeroIoTask, EFloat.div, EFloat.add]

/-- Claim C3 (code behaviour at the failing input): for the empty trace the
code divides `0.0` by `0`, and the resulting NaN is persisted in the
`Comm/Comp_Ratio` column of every row, with no "undefined" sentinel. -/
theorem empty_trace_ratio_is_nan_persisted :
    (mainRun ⟨[], [sampleHost], 0, 10⟩ [] true).ratio_avg = EFloat.nan ∧
    (mainRun ⟨[], [sampleHost], 0, 10⟩ [] true).file =
      [Line.header,
       Line.data [.str "extk-0", .str "WMSHost", .nat 4, .nat 0, .nat 0, .nat 0,
                  .val (.fin 0), .val (.fin 0), .val (.fin 0), .val .nan,
                  .val (.fin 4), .val (.fin 10)]] := by
  constructor
  · norm_num [mainRun, aggregate, EFloat.div]
  · norm_num [mainRun, aggregate, EFloat.div, rowFor, sampleHost]
    rfl

/-- Claim C4: starting from an empty report file, `n >= 1` successful
invocations leave exactly one header line, which is the first line, and
`n * |hosts|` data lines, nothing else. -/
theorem report_file_single_header_rows (inp : SimInput) (n : ℕ) (hn : 1 ≤ n) :
    (runN inp n).head? = some Line.header ∧
    (runN inp n).countP Line.isHeader = 1 ∧
    (runN inp n).countP Line.isData = n * inp.hosts.length ∧
    (runN inp n).length = 1 + n * inp.hosts.length := by
  induction n with
  | zero => omega
  | succ m ih =>
      rcases Nat.eq_zero_or_pos m with hm | hm
      · subst hm
        refine ⟨rfl, ?_, ?_, ?_⟩
        · show List.countP _ (Line.header :: newRows inp) = 1
          rw [List.countP_cons_of_pos _ _ (by rfl), countP_newRows_header]
        · show List.countP _ (Line.header :: newRows inp) = _
          rw [List.countP_cons_of_neg _ _ (by simp [Line.isData]), countP_newRows_data]
          omega
        · show (Line.header :: newRows inp).length = _
          rw [List.length_cons, length_newRows]
          omega
      · obtain ⟨h1, h2, h3, h4⟩ := ih hm
        obtain ⟨rest, hr⟩ : ∃ rest, runN inp m = Line.header :: rest := by
          cases hrm : runN inp m with
          | nil => rw [hrm] at h1; exact absurd h1 (by simp)
          | cons a l =>
              rw [hrm] at h1
              simp only [List.head?_cons, Option.some.injEq] at h1
              exact ⟨l, by rw [h1]⟩
        have hstep : runN inp (m + 1) = runN inp m ++ newRows inp := by
          show (mainRun inp (runN inp m) true).file = _
          rw [mainRun_file_ok, hr]
          simp
        rw [hstep]
        refine ⟨?_, ?_, ?_, ?_⟩
        · rw [hr]; rfl
        · rw [List.countP_append, h2, countP_newRows_header]
        · rw [List.countP_append, h3, countP_newRows_data, Nat.succ_mul]
        · rw [List.length_append, h4, length_newRows, Nat.succ_mul]
          omega

/-- Witness for claim C4: two runs of the sample input (two hosts) leave
one leading header and four data lines. -/
theorem report_file_single_header_rows_witness :
    1 ≤ 2 ∧
    ((runN sampleInput 2).head? = some Line.header ∧
     (runN sampleInput 2).countP Line.isHeader = 1 ∧
     (runN sampleInput 2).countP Line.isData = 2 * sampleInput.hosts.length ∧
     (runN sampleInput 2).length = 1 + 2 * sampleInput.hosts.length) :=
  ⟨by norm_num, report_file_single_header_rows sampleInput 2 (by norm_num)⟩

/-- Claim C5: `failed_tasks` equals the number of trace entries whose
task has more than one execution record - exactly one increment per such
task however many records it has, hence zero when every task has one. -/
theorem failed_tasks_counts_multi_record_tasks (trace : List WorkflowTask) :
    (aggregate trace).num_failed_tasks =
      trace.countP (fun t => decide (1 < t.history.length)) := by
  rw [aggregate, foldl_stepTask_failed]
  simp

/-- Counterexample for claim C6: at a concrete run the header names
twelve columns, none of which is `total_bytes_read` or
`total_bytes_written`, and the emitted row has exactly those twelve
cells - no byte totals are persisted. -/
theorem byte_totals_absent_at_sample :
    headerFields.length = 12 ∧
    ¬ "total_bytes_read" ∈ headerFields ∧
    ¬ "total_bytes_written" ∈ headerFields ∧
    (rowFor sampleInput (aggregate sampleInput.trace)
      (ratioAverage sampleInput.trace) sampleHost).length = 12 :=
  ⟨rfl, by simp [headerFields], by simp [headerFields], rfl⟩

/-- Claim C6 as amended: every persisted data row has exactly the twelve
schema columns of the header, and `total_bytes_read` /
`total_bytes_written` are not among them. -/
theorem report_row_schema_no_byte_totals (inp : SimInput) (st : LoopState)
    (r : EFloat) (h : HostInfo) :
    (rowFor inp st r h).length = headerFields.length ∧
    ¬ "total_bytes_read" ∈ headerFields ∧
    ¬ "total_bytes_written" ∈ headerFields :=
  ⟨rfl, by simp [headerFields], by simp [headerFields]⟩

/-- Counterexample for claim C7: on the two-task sample trace with compute
deltas 2 and 4, the value the code places in the row is 4 (the last task's
delta), not the per-task mean 3. -/
theorem compute_time_not_mean_counterexample :
    (aggregate [sampleTask1, sampleTask2]).compute_time = 4 ∧
    avgComputeTimeSpec [sampleTask1, sampleTask2] = 3 ∧
    (aggregate [sampleTask1, sampleTask2]).compute_time ≠
      avgComputeTimeSpec [sampleTask1, sampleTask2] := by
  norm_num [aggregate, stepTask, computeTime, ioInputTime, ioOutputTime,
    WorkflowTask.top, sampleTask1, sampleTask2, avgComputeTimeSpec]

/-- Claim C7 as amended: the `compute_time`, `IO_time_input` and
`IO_time_output` values the loop leaves behind (and the rows persist) are
the end-minus-start deltas of the final record of the last trace entry,
overwritten on every iteration rather than averaged. -/
theorem timing_fields_are_last_task (ts : List WorkflowTask) (t : WorkflowTask) :
    (aggregate (ts ++ [t])).compute_time = computeTime t ∧
    (aggregate (ts ++ [t])).io_time_input = ioInputTime t ∧
    (aggregate (ts ++ [t])).io_time_output = ioOutputTime t := by
  simp [aggregate, List.foldl_append, stepTask]

/-- Claim C8: whether or not the report file opens, the exit code is 0;
when the open fails the error is reported, the file is untouched, and the
already-computed aggregate state and ratio average are the same values a
successful run would carry. -/
theorem persistence_failure_preserves_run (inp : SimInput) (file : List Line)
    (ok : Bool) :
    (mainRun inp file ok).exit_code = 0 ∧
    (mainRun inp file false).state = (mainRun inp file true).state ∧
    (mainRun inp file false).ratio_avg = (mainRun inp file true).ratio_avg ∧
    (mainRun inp file false).error_reported = true ∧
    (mainRun inp file false).file = file :=
  ⟨rfl, rfl, rfl, rfl, rfl⟩

/-- Claim C9 (code behaviour at the failing input): with
`completion_date = 0` and 40 J consumed, the code persists
`energy / completion_date` as positive infinity in the power column -
no "undefined" marker replaces the non-finite value. -/
theorem zero_completion_date_power_infinite :
    (mainRun ⟨[sampleTask1], [sampleHost], 1, 0⟩ [] true).file =
      [Line.header,
       Line.data [.str "extk-1", .str "WMSHost", .nat 4, .nat 1, .nat 1, .nat 0,
                  .val (.fin 2), .val (.fin 1), .val (.fin 1), .val (.fin 1),
                  .val EFloat.pinf, .val (.fin 0)]] := by
  norm_num [mainRun, aggregate, stepTask, computeTime, ioInputTime, ioOutputTime,
    WorkflowTask.top, sampleTask1, EFloat.div, EFloat.add, rowFor, sampleHost]
  rfl

/-- Claim C10: any two data rows written by one invocation carry the same
run id, task count, trace size, failure count, the three timing values,
ratio and completion date; only the host name, core count and power cells
can differ. -/
theorem rows_within_run_share_fields (inp : SimInput) (fs1 fs2 : List Cell)
    (m1 : Line.data fs1 ∈ (mainRun inp [] true).file)
    (m2 : Line.data fs2 ∈ (mainRun inp [] true).file) :
    fs1[0]? = fs2[0]? ∧ fs1[3]? = fs2[3]? ∧ fs1[4]? = fs2[4]? ∧
    fs1[5]? = fs2[5]? ∧ fs1[6]? = fs2[6]? ∧ fs1[7]? = fs2[7]? ∧
    fs1[8]? = fs2[8]? ∧ fs1[9]? = fs2[9]? ∧ fs1[11]? = fs2[11]? := by
  rw [mainRun_file_ok] at m1 m2
  simp [newRows, List.mem_map] at m1 m2
  obtain ⟨a, ha, rfl⟩ := m1
  obtain ⟨b, hb, rfl⟩ := m2
  simp [rowFor]

/-- Witness for claim C10: the two rows of the sample run are both in the
file and agree on all nine run-level cells. -/
theorem rows_within_run_share_fields_witness :
    (Line.data wRow1 ∈ (mainRun sampleInput [] true).file) ∧
    (Line.data wRow2 ∈ (mainRun sampleInput [] true).file) ∧
    (wRow1[0]? = wRow2[0]? ∧ wRow1[3]? = wRow2[3]? ∧ wRow1[4]? = wRow2[4]? ∧
     wRow1[5]? = wRow2[5]? ∧ wRow1[6]? = wRow2[6]? ∧ wRow1[7]? = wRow2[7]? ∧
     wRow1[8]? = wRow2[8]? ∧ wRow1[9]? = wRow2[9]? ∧ wRow1[11]? = wRow2[11]?) :=
  ⟨by simp [mainRun_file_ok, newRows, wRow1, sampleInput],
   by simp [mainRun_file_ok, newRows, wRow2, sampleInput],
   rows_within_run_share_fields sampleInput wRow1 wRow2
     (by simp [mainRun_file_ok, newRows, wRow1, sampleInput])
     (by simp [mainRun_file_ok, newRows, wRow2, sampleInput])⟩
